import Mathlib

/-!
Shallow embedding of `CADETProcess/processModel/unitOperation.py`.

The Python module defines `UnitBaseClass` (flow rate, output-state
apportionment, destination edges, parameter/initial-state views) and a
hierarchy of concrete unit types.  Python numbers are embedded as `ℚ`
(the source compares sums and products exactly), Python `None` as a
dedicated value, dicts as insertion-ordered association lists, and
raisable operations return either `Except` or a `state × Option error`
pair when the source mutates before raising.
-/

/-- A Python value stored in a parameter mapping or passed to a setter:
`pnone` is Python `None`, `intV` a Python `int` (the `output_state`
setter dispatches on `type(state) is int`), `num` any other number,
`vec` a list of numbers, `pbool` a `bool`. -/
inductive PValue where
  | pnone : PValue
  | num (q : ℚ) : PValue
  | intV (i : ℤ) : PValue
  | vec (xs : List ℚ) : PValue
  | pbool (b : Bool) : PValue
deriving DecidableEq

/-- Exceptions raised by the embedded code.  `cadetProcessError` is the
repository's `CADETProcessError` (the spec's ConfigurationError) with its
message; `typeError` / `indexError` are Python built-ins;
`validationError` is raised by the descriptor framework on an invalid
attribute write (framework lives in `CADETProcess.common`). -/
inductive PyErr where
  | cadetProcessError (msg : String) : PyErr
  | typeError : PyErr
  | indexError : PyErr
  | validationError : PyErr
deriving DecidableEq

/-- Association-list lookup (Python `dict[key]` access, first binding). -/
def lookupKey : List (String × PValue) → String → Option PValue
  | [], _ => none
  | (k', v') :: rest, k => if k' = k then some v' else lookupKey rest k

/-- Association-list update (Python `dict[key] = value`): replaces the
first binding of the key, or appends a new one. -/
def setKey : List (String × PValue) → String → PValue → List (String × PValue)
  | [], k, v => [(k, v)]
  | (k', v') :: rest, k, v =>
      if k' = k then (k, v) :: rest else (k', v') :: setKey rest k v

/-- Python `dict.pop(key)`: the removed value (if any) and the remaining
mapping, order preserved.  Dict keys are unique, so removing the first
binding matches. -/
def popKey : List (String × PValue) → String → Option PValue × List (String × PValue)
  | [], _ => (none, [])
  | (k', v') :: rest, k =>
      if k' = k then (some v', rest)
      else ((popKey rest k).1, (k', v') :: (popKey rest k).2)

/-- Drop a key from a mapping, keeping the rest (the second component of
`dict.pop`). -/
def removeKey (ps : List (String × PValue)) (k : String) : List (String × PValue) :=
  (popKey ps k).2

/-- State of a `UnitBaseClass` instance.

`destinations` and `origins` model the insertion-ordered dicts mapping a
neighbour unit's name to its edge record; an edge record holds one field,
`flow_rate`, so it is embedded as the bare rational.  `output_state`
models `self._output_state` (a `List()` descriptor with no default, so it
reads as `None` until first assigned: `none` here).  The subtype
dispatch on the class attribute `_parameters` is modelled by
`extraParamNames` (the names the concrete subtype appends after the
inherited `'flow_rate'`) together with `extraParams`, the descriptor
storage for those attributes (`getattr`/`setattr`); `is_sink` models
`isinstance(self, Sink)`.  Every unit modelled here keeps its
constructor-installed `NoBinding` binding model. -/
structure UnitBaseClass where
  name : String
  n_comp : ℕ
  flow_rate : ℚ
  reverse_flow : Bool := false
  output_state : Option (List ℚ) := none
  origins : List (String × ℚ) := []
  destinations : List (String × ℚ) := []
  extraParamNames : List String := []
  extraParams : List (String × PValue) := []
  is_sink : Bool := false
deriving DecidableEq

/-- The instance's `self._parameters`: the base class declares
`['flow_rate']` and each subtype appends its own names. -/
def UnitBaseClass.parametersList (u : UnitBaseClass) : List String :=
  "flow_rate" :: u.extraParamNames

/-- `getattr(self, param)` for a declared parameter name: `flow_rate` is
the base attribute; any other name reads the subtype's descriptor
storage, an unset descriptor without default reading as `None`. -/
def UnitBaseClass.getAttr (u : UnitBaseClass) (param : String) : PValue :=
  if param = "flow_rate" then .num u.flow_rate
  else (lookupKey u.extraParams param).getD .pnone

/-- `setattr(self, param, value)` for a declared parameter name.
`flow_rate` is an `UnsignedFloat` descriptor: numeric values are
accepted iff non-negative (descriptor framework in
`CADETProcess.common`, modelled from the spec: unsigned float rejects
negatives, non-numeric values fail the type check).  Other declared
names store into the subtype's descriptor slot WITHOUT re-running that
slot's validator: the real descriptors (e.g. `length = UnsignedFloat()`,
`film_diffusion = DependentlySizedUnsignedList(...)`) would reject some
values this branch stores.  The theorems below therefore reach this
branch only with values just read back from an instance of the same
subtype and `n_comp` — values the real validators accept again, so model
and program agree there — and any theorem about writes that may be
rejected restricts itself by hypothesis to `flow_rate` writes and
skipped `None` entries, where the validation is modelled in full. -/
def UnitBaseClass.setAttr (u : UnitBaseClass) (param : String) (value : PValue) :
    Except PyErr UnitBaseClass :=
  if param = "flow_rate" then
    match value with
    | .num q => if q < 0 then .error .validationError else .ok { u with flow_rate := q }
    | .intV i => if i < 0 then .error .validationError else .ok { u with flow_rate := (i : ℚ) }
    | _ => .error .validationError
  else
    .ok { u with extraParams := setKey u.extraParams param value }

/-- Helper for `update_flow_rate`: rebuild the destination edge records,
assigning `output_state[index] * flow_rate` to the edge at each index. -/
def updateEdges (os : List ℚ) (fr : ℚ) : ℕ → List (String × ℚ) → List (String × ℚ)
  | _, [] => []
  | i, (dest, _) :: rest => (dest, os.getD i 0 * fr) :: updateEdges os fr (i + 1) rest

/-- `UnitBaseClass.update_flow_rate`: for each destination, in mapping
order, set its edge's `flow_rate` to `self.output_state[index] *
self.flow_rate`.  Python would raise if `output_state` were unset or
shorter than `destinations`; the only caller (the `output_state` setter)
stores a list of exactly `len(destinations)` entries first, so the `getD`
fallbacks are never reached there. -/
def UnitBaseClass.update_flow_rate (u : UnitBaseClass) : UnitBaseClass :=
  { u with destinations := updateEdges (u.output_state.getD []) u.flow_rate 0 u.destinations }

/-- The `output_state` setter.  `state_length = len(self.destinations)`.
An `int` argument is checked only against `state >= state_length`, then
one-hot assigned via `output_state[state] = 1` — Python list indexing, so
a negative `state` down to `-state_length` lands at `state_length +
state` and anything lower raises `IndexError`.  Any other argument goes
through `len(state)` (raising `TypeError` for non-sequences), the length
check, and the exact-sum check.  The source's `if state_length == 0:
output_state = []` branch is dead: both following branches overwrite or
raise.  On acceptance the value is stored and `update_flow_rate` runs. -/
def UnitBaseClass.set_output_state (u : UnitBaseClass) (state : PValue) :
    Except PyErr UnitBaseClass :=
  let state_length := u.destinations.length
  match state with
  | .intV i =>
      if (state_length : ℤ) ≤ i then
        .error (.cadetProcessError "Index exceeds destinations")
      else if 0 ≤ i then
        .ok (UnitBaseClass.update_flow_rate
          { u with output_state := some ((List.replicate state_length (0 : ℚ)).set i.toNat 1) })
      else if -(state_length : ℤ) ≤ i then
        let oneHot := (List.replicate state_length (0 : ℚ)).set (i + state_length).toNat 1
        .ok (UnitBaseClass.update_flow_rate { u with output_state := some oneHot })
      else .error .indexError
  | .vec xs =>
      if xs.length ≠ state_length then
        .error (.cadetProcessError ("Expected length " ++ toString state_length ++ "."))
      else if xs.sum ≠ 1 then
        .error (.cadetProcessError "Sum of fractions must be 1")
      else
        .ok (UnitBaseClass.update_flow_rate { u with output_state := some xs })
  | _ => .error .typeError

/-- The `parameters` getter: every declared parameter name mapped to its
current value, then — for a unit that is not a `Sink` — an
`output_state` entry.  A `binding_model` entry is injected only when the
binding model is not `NoBinding`; all units modelled here keep
`NoBinding`, so no such entry appears. -/
def UnitBaseClass.parameters (u : UnitBaseClass) : List (String × PValue) :=
  (u.parametersList.map (fun param => (param, u.getAttr param)))
    ++ (if u.is_sink then []
        else [("output_state",
               match u.output_state with
               | none => PValue.pnone
               | some xs => PValue.vec xs)])

/-- The loop at the end of the `parameters` setter: entries are applied
in mapping order; an undeclared key raises at that point, with every
earlier entry already written (the raise leaves the partial mutation in
place, hence the `state × Option error` result); a `None` value is
skipped. -/
def applyLoop (u : UnitBaseClass) : List (String × PValue) → UnitBaseClass × Option PyErr
  | [] => (u, none)
  | (param, value) :: rest =>
      if param ∈ u.parametersList then
        if value = PValue.pnone then applyLoop u rest
        else
          match u.setAttr param value with
          | .ok u' => applyLoop u' rest
          | .error e => (u, some e)
      else (u, some (.cadetProcessError "Not a valid parameter"))

/-- The `parameters` setter: pop `binding_model` (delegating to the
binding model's own setter — that code lives in the binding module
outside this file's source; every unit here carries `NoBinding` and no
mapping below holds the key, so only the pop is modelled), pop
`output_state` (delegating to its setter, whose error propagates with
the unit untouched so far), then run the per-entry loop. -/
def UnitBaseClass.set_parameters (u : UnitBaseClass) (ps : List (String × PValue)) :
    UnitBaseClass × Option PyErr :=
  let ps1 := removeKey ps "binding_model"
  let popped := popKey ps1 "output_state"
  match popped.1 with
  | none => applyLoop u popped.2
  | some v =>
      match u.set_output_state v with
      | .ok u' => applyLoop u' popped.2
      | .error e => (u, some e)

/-- `UnitBaseClass._parameters`, the class-level declaration. -/
def UnitBaseClass.parametersClassList : List String := ["flow_rate"]

/-- `UnitBaseClass._initial_state`. -/
def UnitBaseClass.initialStateClassList : List String := []

/-- `TubularReactor._parameters = UnitBaseClass._parameters + [...]`. -/
def TubularReactor.parametersClassList : List String :=
  UnitBaseClass.parametersClassList ++ ["length", "diameter", "axial_dispersion"]

/-- `TubularReactor._initial_state = UnitBaseClass._initial_state + ['c']`. -/
def TubularReactor.initialStateClassList : List String :=
  UnitBaseClass.initialStateClassList ++ ["c"]

/-- `LumpedRateModelWithPores._parameters = TubularReactor._parameters +
['bed_porosity', 'particle_porosity', 'particle_radius',
'film_diffusion', 'pore_diffusion']`. -/
def LumpedRateModelWithPores.parametersClassList : List String :=
  TubularReactor.parametersClassList ++
    ["bed_porosity", "particle_porosity", "particle_radius",
     "film_diffusion", "pore_diffusion"]

/-- The descriptor attributes declared in the body of
`LumpedRateModelWithPores` (its class-level slots), in source order. -/
def LumpedRateModelWithPores.declaredAttributes : List String :=
  ["bed_porosity", "particle_porosity", "particle_radius",
   "film_diffusion", "pore_diffusion", "pore_accessibility", "cp", "q"]

/-- Geometry-bearing state of a `TubularReactor` instance: the declared
`UnsignedFloat` attributes feeding its derived quantities, over `ℝ`
because the formulas use `math.pi`. -/
structure TubularReactor where
  length : ℝ
  diameter : ℝ
  axial_dispersion : ℝ
  flow_rate : ℝ

/-- The class attribute `total_porosity = 1` of the base
`TubularReactor` (subclasses override it; this models the base class). -/
def TubularReactor.total_porosity (_ : TubularReactor) : ℝ := 1

/-- `cross_section_area = math.pi / 4 * diameter ** 2`. -/
noncomputable def TubularReactor.cross_section_area (t : TubularReactor) : ℝ :=
  Real.pi / 4 * t.diameter ^ 2

/-- `cylinder_volume = cross_section_area * length`. -/
noncomputable def TubularReactor.cylinder_volume (t : TubularReactor) : ℝ :=
  t.cross_section_area * t.length

/-- `volume_liquid = total_porosity * cylinder_volume`. -/
noncomputable def TubularReactor.volume_liquid (t : TubularReactor) : ℝ :=
  t.total_porosity * t.cylinder_volume

/-- `volume_solid = (1 - total_porosity) * cylinder_volume`. -/
noncomputable def TubularReactor.volume_solid (t : TubularReactor) : ℝ :=
  (1 - t.total_porosity) * t.cylinder_volume

instance : DecidableEq (Except PyErr UnitBaseClass) := fun x y =>
  match x, y with
  | .ok a, .ok b =>
      if h : a = b then .isTrue (congrArg Except.ok h)
      else .isFalse (fun hc => h (Except.ok.inj hc))
  | .error a, .error b =>
      if h : a = b then .isTrue (congrArg Except.error h)
      else .isFalse (fun hc => h (Except.error.inj hc))
  | .ok _, .error _ => .isFalse (fun hc => Except.noConfusion hc)
  | .error _, .ok _ => .isFalse (fun hc => Except.noConfusion hc)

lemma updateEdges_length (os : List ℚ) (fr : ℚ) :
    ∀ (i : ℕ) (l : List (String × ℚ)), (updateEdges os fr i l).length = l.length := by
  intro i l
  induction l generalizing i with
  | nil => rfl
  | cons hd tl ih => simp [updateEdges, ih]

lemma updateEdges_getElem (os : List ℚ) (fr : ℚ) :
    ∀ (l : List (String × ℚ)) (i j : ℕ) (h : j < l.length)
      (h' : j < (updateEdges os fr i l).length),
      (updateEdges os fr i l)[j] = ((l[j]).1, os.getD (i + j) 0 * fr) := by
  intro l
  induction l with
  | nil => intro i j h h'; exact absurd h (Nat.not_lt_zero j)
  | cons hd tl ih =>
      intro i j h h'
      obtain ⟨d, f0⟩ := hd
      match j with
      | 0 => simp [updateEdges]
      | Nat.succ j' =>
          have htl : j' < tl.length := Nat.lt_of_succ_lt_succ h
          have htl' : j' < (updateEdges os fr (i + 1) tl).length := by
            rw [updateEdges_length]; exact htl
          have harith : i + (j' + 1) = (i + 1) + j' := by omega
          simp only [updateEdges, List.getElem_cons_succ]
          rw [ih (i + 1) j' htl htl', harith]

lemma sum_replicate_zero : ∀ n : ℕ, (List.replicate n (0 : ℚ)).sum = 0 := by
  intro n
  induction n with
  | zero => rfl
  | succ m ih => simp [List.replicate, ih]

lemma sum_replicate_set_one :
    ∀ (n i : ℕ), i < n → ((List.replicate n (0 : ℚ)).set i 1).sum = 1 := by
  intro n
  induction n with
  | zero => intro i h; exact absurd h (Nat.not_lt_zero i)
  | succ m ih =>
      intro i h
      match i with
      | 0 => simp [List.replicate, sum_replicate_zero]
      | Nat.succ i' =>
          have : i' < m := Nat.lt_of_succ_lt_succ h
          simp [List.replicate, ih i' this]

lemma update_flow_rate_output_state (u : UnitBaseClass) :
    (UnitBaseClass.update_flow_rate u).output_state = u.output_state := rfl

lemma update_flow_rate_flow_rate (u : UnitBaseClass) :
    (UnitBaseClass.update_flow_rate u).flow_rate = u.flow_rate := rfl

/-- Whenever the `output_state` setter accepts its argument, the stored
list has exactly one entry per destination and the unit's new state is
the recomputation of the edge flow rates over that list. -/
lemma set_output_state_ok_spec (u u' : UnitBaseClass) (s : PValue)
    (h : u.set_output_state s = .ok u') :
    ∃ xs : List ℚ, xs.length = u.destinations.length
      ∧ u' = UnitBaseClass.update_flow_rate { u with output_state := some xs } := by
  cases s with
  | pnone => exact absurd h (by simp [UnitBaseClass.set_output_state])
  | num q => exact absurd h (by simp [UnitBaseClass.set_output_state])
  | pbool b => exact absurd h (by simp [UnitBaseClass.set_output_state])
  | intV i =>
      by_cases h1 : (u.destinations.length : ℤ) ≤ i
      · exact absurd h (by simp [UnitBaseClass.set_output_state, h1])
      · by_cases h2 : 0 ≤ i
        · refine ⟨(List.replicate u.destinations.length (0 : ℚ)).set i.toNat 1, by simp, ?_⟩
          simp only [UnitBaseClass.set_output_state, if_neg h1, if_pos h2] at h
          exact (Except.ok.inj h).symm
        · by_cases h3 : -(u.destinations.length : ℤ) ≤ i
          · refine ⟨(List.replicate u.destinations.length (0 : ℚ)).set
              (i + u.destinations.length).toNat 1, by simp, ?_⟩
            simp only [UnitBaseClass.set_output_state, if_neg h1, if_neg h2, if_pos h3] at h
            exact (Except.ok.inj h).symm
          · exact absurd h (by simp [UnitBaseClass.set_output_state, h1, h2, h3])
  | vec xs =>
      by_cases h1 : xs.length = u.destinations.length
      · by_cases h2 : xs.sum = 1
        · refine ⟨xs, h1, ?_⟩
          simp [UnitBaseClass.set_output_state, h1, h2] at h
          exact h.symm
        · exact absurd h (by simp [UnitBaseClass.set_output_state, h1, h2])
      · exact absurd h (by simp [UnitBaseClass.set_output_state, h1])

lemma update_flow_rate_getElem (u : UnitBaseClass) (i : ℕ)
    (hi : i < u.destinations.length)
    (hi' : i < (UnitBaseClass.update_flow_rate u).destinations.length) :
    ((UnitBaseClass.update_flow_rate u).destinations[i]).2
      = (u.output_state.getD []).getD i 0 * u.flow_rate := by
  simp only [UnitBaseClass.update_flow_rate]
  rw [updateEdges_getElem (u.output_state.getD []) u.flow_rate u.destinations 0 i hi
    (by rw [updateEdges_length]; exact hi)]
  simp

/-- Splitter-like fixture with three destinations. -/
def unitA : UnitBaseClass :=
  { name := "splitter", n_comp := 2, flow_rate := 1,
    destinations := [("colA", 0), ("colB", 0), ("colC", 0)] }

/-- Fixture with a single destination. -/
def unitB : UnitBaseClass :=
  { name := "feed", n_comp := 1, flow_rate := 1, destinations := [("col", 0)] }

/-- `unitB` right after the assignment `output_state = [1]`. -/
def unitB1 : UnitBaseClass :=
  { name := "feed", n_comp := 1, flow_rate := 1, output_state := some [1],
    destinations := [("col", 1)] }

/-- `unitB1` right after the assignment `flow_rate = 2` (the descriptor
write touches only `flow_rate`; no edge recomputation happens). -/
def unitB2 : UnitBaseClass :=
  { name := "feed", n_comp := 1, flow_rate := 2, output_state := some [1],
    destinations := [("col", 1)] }

/-- Fixture with two destinations. -/
def unitD : UnitBaseClass :=
  { name := "tee", n_comp := 1, flow_rate := 1,
    destinations := [("outP", 0), ("outQ", 0)] }

/-- Fixture with no destinations. -/
def unitE : UnitBaseClass :=
  { name := "outlet", n_comp := 1, flow_rate := 1 }

/-- C1 (amended): after any assignment to `output_state` completes
successfully, every destination edge record's `flow_rate` equals the
unit's `flow_rate` multiplied by the `output_state` fraction at that
destination's position in insertion order.  (The claim's other trigger —
an assignment to `flow_rate` — performs no recomputation; see the
counterexample.) -/
theorem edge_flows_consistent_after_output_state (u u' : UnitBaseClass) (s : PValue)
    (h : u.set_output_state s = .ok u') (i : Fin u'.destinations.length) :
    (u'.destinations.get i).2 = (u'.output_state.getD []).getD i 0 * u'.flow_rate := by
  obtain ⟨xs, hlen, rfl⟩ := set_output_state_ok_spec u u' s h
  obtain ⟨i, hi⟩ := i
  have hi' : i < u.destinations.length := by
    have h2 := hi
    rw [show (UnitBaseClass.update_flow_rate { u with output_state := some xs }).destinations
        = updateEdges xs u.flow_rate 0 u.destinations from rfl, updateEdges_length] at h2
    exact h2
  rw [update_flow_rate_output_state, update_flow_rate_flow_rate, List.get_eq_getElem]
  exact update_flow_rate_getElem { u with output_state := some xs } i hi' hi

/-- Witness for C1's theorem at `unitB`, `output_state = [1]`. -/
theorem edge_flows_consistent_after_output_state_witness :
    (unitB1.destinations.get ⟨0, by decide⟩).2
      = (unitB1.output_state.getD []).getD 0 0 * unitB1.flow_rate :=
  edge_flows_consistent_after_output_state unitB unitB1 (.vec [1])
    (by simp [unitB, unitB1, UnitBaseClass.set_output_state,
          UnitBaseClass.update_flow_rate, updateEdges, List.getD])
    ⟨0, by decide⟩

/-- C1 counterexample: a later `flow_rate = 2` assignment leaves the edge
flow rate at its old value `1`, violating `edge.flow_rate ==
unit.flow_rate * output_state[0]` (which would be `2`). -/
theorem flow_rate_assignment_skips_edge_update :
    unitB.set_output_state (.vec [1]) = .ok unitB1
    ∧ unitB1.setAttr "flow_rate" (.num 2) = .ok unitB2
    ∧ (unitB2.destinations.get ⟨0, by decide⟩).2
        ≠ (unitB2.output_state.getD []).getD 0 0 * unitB2.flow_rate := by
  refine ⟨?_, ?_, ?_⟩
  · simp [unitB, unitB1, UnitBaseClass.set_output_state,
      UnitBaseClass.update_flow_rate, updateEdges, List.getD]
  · norm_num [unitB1, unitB2, UnitBaseClass.setAttr]
  · norm_num [unitB2, List.getD]

/-- C2 (confirmed): for a unit with non-empty destinations, assigning an
explicit sequence to `output_state` raises `CADETProcessError` exactly
when the length differs from the destination count or the sum is not
exactly 1; otherwise the sequence is stored as the new `output_state`. -/
theorem output_state_sequence_validation (u : UnitBaseClass) (xs : List ℚ)
    (hne : u.destinations ≠ []) :
    ((xs.length ≠ u.destinations.length ∨ xs.sum ≠ 1) ↔
      ∃ msg, u.set_output_state (.vec xs) = .error (.cadetProcessError msg))
    ∧ (xs.length = u.destinations.length → xs.sum = 1 →
        ∃ u', u.set_output_state (.vec xs) = .ok u' ∧ u'.output_state = some xs) := by
  constructor
  · constructor
    · intro hbad
      by_cases h1 : xs.length = u.destinations.length
      · have h2 : xs.sum ≠ 1 := by tauto
        exact ⟨"Sum of fractions must be 1",
          by simp [UnitBaseClass.set_output_state, h1, h2]⟩
      · exact ⟨"Expected length " ++ toString u.destinations.length ++ ".",
          by simp [UnitBaseClass.set_output_state, h1]⟩
    · rintro ⟨msg, hmsg⟩
      by_contra hgood
      push_neg at hgood
      obtain ⟨h1, h2⟩ := hgood
      simp [UnitBaseClass.set_output_state, h1, h2] at hmsg
  · intro h1 h2
    exact ⟨UnitBaseClass.update_flow_rate { u with output_state := some xs },
      by simp [UnitBaseClass.set_output_state, h1, h2], rfl⟩

/-- Witness for C2's theorem: `unitB` (one destination) accepts `[1]`. -/
theorem output_state_sequence_validation_witness :
    ∃ u', unitB.set_output_state (.vec [1]) = .ok u' ∧ u'.output_state = some [1] :=
  (output_state_sequence_validation unitB [1] (by decide)).2 (by decide) (by simp)

/-- C3 (confirmed): assigning the integer `i` (with `0 ≤ i <
len(destinations)`) to `output_state` is the same operation as assigning
the one-hot sequence with `1` at position `i`: identical stored
`output_state` and identical destination edge flow rates. -/
theorem output_state_integer_one_hot_equivalence (u : UnitBaseClass) (i : ℕ)
    (hi : i < u.destinations.length) :
    u.set_output_state (.intV i) =
      u.set_output_state (.vec ((List.replicate u.destinations.length (0 : ℚ)).set i 1)) := by
  have h1 : ¬ ((u.destinations.length : ℤ) ≤ (i : ℤ)) := by exact_mod_cast Nat.not_le.mpr hi
  have h2 : (0 : ℤ) ≤ (i : ℤ) := Int.natCast_nonneg i
  have hlen : ((List.replicate u.destinations.length (0 : ℚ)).set i 1).length
      = u.destinations.length := by simp
  have hsum : ((List.replicate u.destinations.length (0 : ℚ)).set i 1).sum = 1 :=
    sum_replicate_set_one u.destinations.length i hi
  simp [UnitBaseClass.set_output_state, h1, h2, hlen, hsum]

/-- Witness for C3's theorem: index 1 of `unitA`'s three destinations. -/
theorem output_state_integer_one_hot_equivalence_witness :
    unitA.set_output_state (.intV 1) =
      unitA.set_output_state
        (.vec ((List.replicate unitA.destinations.length (0 : ℚ)).set 1 1)) :=
  output_state_integer_one_hot_equivalence unitA 1 (by decide)

/-- C4 (amended): an integer assignment to `output_state` raises
`CADETProcessError` exactly for `i ≥ len(destinations)`; a negative `i`
is NOT rejected: for `-len ≤ i < 0` Python's negative indexing stores the
one-hot sequence at position `len + i`, and only `i < -len` fails, with
an `IndexError` rather than a `CADETProcessError`.  A raising assignment
returns no new state, so the stored `output_state` and the edges are
unchanged. -/
theorem output_state_integer_range_check (u : UnitBaseClass) (i : ℤ) :
    ((u.destinations.length : ℤ) ≤ i →
        u.set_output_state (.intV i)
          = .error (.cadetProcessError "Index exceeds destinations"))
    ∧ (-(u.destinations.length : ℤ) ≤ i → i < 0 →
        u.set_output_state (.intV i)
          = .ok (UnitBaseClass.update_flow_rate { u with output_state := some ((List.replicate u.destinations.length (0 : ℚ)).set (i + u.destinations.length).toNat 1) }))
    ∧ (i < -(u.destinations.length : ℤ) →
        u.set_output_state (.intV i) = .error .indexError) := by
  refine ⟨fun h1 => by simp [UnitBaseClass.set_output_state, h1], fun h3 h2 => ?_, fun h4 => ?_⟩
  · have h1 : ¬ ((u.destinations.length : ℤ) ≤ i) := by omega
    have h2' : ¬ ((0 : ℤ) ≤ i) := by omega
    simp [UnitBaseClass.set_output_state, h1, h2', h3]
  · have h1 : ¬ ((u.destinations.length : ℤ) ≤ i) := by omega
    have h2' : ¬ ((0 : ℤ) ≤ i) := by omega
    have h3' : ¬ (-(u.destinations.length : ℤ) ≤ i) := by omega
    simp [UnitBaseClass.set_output_state, h1, h2', h3']

/-- Witness for C4's (amended) theorem: on `unitA` (three destinations),
`output_state = 5` raises `CADETProcessError` and `output_state = -7`
raises `IndexError`. -/
theorem output_state_integer_range_check_witness :
    unitA.set_output_state (.intV 5)
        = .error (.cadetProcessError "Index exceeds destinations")
    ∧ unitA.set_output_state (.intV (-7)) = .error .indexError :=
  ⟨(output_state_integer_range_check unitA 5).1 (by decide),
   (output_state_integer_range_check unitA (-7)).2.2 (by decide)⟩

/-- C4 counterexample: on `unitA` (three destinations) the out-of-range
index `-1` does NOT raise; it stores the one-hot `[0, 0, 1]` and rewrites
the edges, so the state does not stay unchanged either. -/
theorem output_state_negative_index_accepted :
    unitA.set_output_state (.intV (-1))
      = .ok { unitA with output_state := some [0, 0, 1], destinations := [("colA", 0), ("colB", 0), ("colC", 1)] } := by
  norm_num [unitA, UnitBaseClass.set_output_state, UnitBaseClass.update_flow_rate,
    updateEdges, List.replicate, List.getD]
  decide

/-- C5 (code bug): with zero destinations the setter's own docstring and
its dead `output_state = []` branch say the empty assignment yields the
empty `output_state`, but the `else` branch still runs the sum check and
`sum([]) == 0 != 1` raises. -/
theorem empty_output_state_on_no_destinations_raises :
    unitE.set_output_state (.vec [])
      = .error (.cadetProcessError "Sum of fractions must be 1") := by
  simp [unitE, UnitBaseClass.set_output_state]

/-- C6 (amended): every sequence the `output_state` setter accepts has
the declared length and sums exactly to 1 — but non-negativity is NOT
checked, so entries may be negative (see the counterexample). -/
theorem accepted_output_state_length_and_sum (u u' : UnitBaseClass) (xs : List ℚ)
    (h : u.set_output_state (.vec xs) = .ok u') :
    u'.output_state = some xs ∧ xs.length = u.destinations.length ∧ xs.sum = 1 := by
  by_cases h1 : xs.length = u.destinations.length
  · by_cases h2 : xs.sum = 1
    · refine ⟨?_, h1, h2⟩
      simp [UnitBaseClass.set_output_state, h1, h2] at h
      rw [← h]
      rfl
    · exact absurd h (by simp [UnitBaseClass.set_output_state, h1, h2])
  · exact absurd h (by simp [UnitBaseClass.set_output_state, h1])

/-- Witness for C6's (amended) theorem at `unitD` with `[1, 0]`. -/
theorem accepted_output_state_length_and_sum_witness :
    ({ unitD with output_state := some [1, 0], destinations := [("outP", 1), ("outQ", 0)] } : UnitBaseClass).output_state = some [1, 0]
    ∧ ([1, 0] : List ℚ).length = unitD.destinations.length
    ∧ ([(1 : ℚ), 0]).sum = 1 :=
  accepted_output_state_length_and_sum unitD
    { unitD with output_state := some [1, 0], destinations := [("outP", 1), ("outQ", 0)] }
    [1, 0]
    (by simp [unitD, UnitBaseClass.set_output_state, UnitBaseClass.update_flow_rate,
      updateEdges, List.getD])

/-- C6 counterexample: `[-1, 2]` has length 2 and sum 1, so the setter
accepts it on two-destination `unitD` and stores a negative fraction
(edge `outP` even gets the negative flow rate `-1`). -/
theorem negative_fraction_accepted :
    unitD.set_output_state (.vec [-1, 2])
      = .ok { unitD with output_state := some [-1, 2], destinations := [("outP", -1), ("outQ", 2)] }
    ∧ (-1 : ℚ) < 0 := by
  constructor
  · norm_num [unitD, UnitBaseClass.set_output_state, UnitBaseClass.update_flow_rate,
      updateEdges, List.getD]
  · norm_num

lemma lookupKey_setKey_same (l : List (String × PValue)) (k : String) (v : PValue) :
    lookupKey (setKey l k v) k = some v := by
  induction l with
  | nil => simp [setKey, lookupKey]
  | cons kv rest ih =>
      obtain ⟨k', v'⟩ := kv
      by_cases h : k' = k
      · simp [setKey, h, lookupKey]
      · simp [setKey, h, lookupKey, ih]

lemma lookupKey_setKey_ne (l : List (String × PValue)) (k : String) (v : PValue)
    (k' : String) (hne : k' ≠ k) :
    lookupKey (setKey l k v) k' = lookupKey l k' := by
  have hkk : ¬ k = k' := fun hc => hne hc.symm
  induction l with
  | nil => simp [setKey, lookupKey, hkk]
  | cons kv rest ih =>
      obtain ⟨a, b⟩ := kv
      by_cases h : a = k
      · subst h
        simp [setKey, lookupKey, hkk]
      · simp [setKey, h, lookupKey, ih]

lemma popKey_not_mem (l : List (String × PValue)) (k : String)
    (h : ∀ kv ∈ l, kv.1 ≠ k) : popKey l k = (none, l) := by
  induction l with
  | nil => rfl
  | cons kv rest ih =>
      obtain ⟨a, b⟩ := kv
      have ha : a ≠ k := h (a, b) (by simp)
      have ih' := ih (fun kv hkv => h kv (by simp [hkv]))
      simp [popKey, ha, ih']

lemma popKey_append (l1 l2 : List (String × PValue)) (k : String) (v : PValue)
    (h : ∀ kv ∈ l1, kv.1 ≠ k) :
    popKey (l1 ++ (k, v) :: l2) k = (some v, l1 ++ l2) := by
  induction l1 with
  | nil => simp [popKey]
  | cons kv rest ih =>
      obtain ⟨a, b⟩ := kv
      have ha : a ≠ k := h (a, b) (by simp)
      have ih' := ih (fun kv hkv => h kv (by simp [hkv]))
      simp [popKey, ha, ih']

/-- Applying, onto a unit `w`, the entries read off a unit `u` for a list
of declared names: the loop completes without error, leaves the declared
name list unchanged, reproduces `u`'s value at every listed name (values
read as `None` are skipped, so `w` must read `None` there too — true for
a fresh unit of the same subtype), and touches no other name. -/
lemma applyLoop_from_getAttr (u : UnitBaseClass) :
    ∀ (names : List String) (w : UnitBaseClass),
      (∀ p ∈ names, p ∈ w.parametersList) →
      0 ≤ u.flow_rate →
      (∀ p ∈ names, u.getAttr p = .pnone → w.getAttr p = .pnone) →
      ∃ w', applyLoop w (names.map (fun p => (p, u.getAttr p))) = (w', none)
        ∧ w'.parametersList = w.parametersList
        ∧ (∀ p, p ∈ names → w'.getAttr p = u.getAttr p)
        ∧ (∀ p, p ∉ names → w'.getAttr p = w.getAttr p) := by
  intro names
  induction names with
  | nil =>
      intro w _ _ _
      exact ⟨w, rfl, rfl, by simp, fun p _ => rfl⟩
  | cons p rest ih =>
      intro w hmem hflow hdef
      have hpmem : p ∈ w.parametersList := hmem p (by simp)
      by_cases hval : u.getAttr p = .pnone
      · -- value is None: the loop skips this entry
        have step : applyLoop w ((p :: rest).map (fun q => (q, u.getAttr q)))
            = applyLoop w (rest.map (fun q => (q, u.getAttr q))) := by
          simp [applyLoop, hpmem, hval]
        obtain ⟨w', hw', hpl, hin, hout⟩ := ih w (fun q hq => hmem q (by simp [hq])) hflow
          (fun q hq => hdef q (by simp [hq]))
        refine ⟨w', by rw [step]; exact hw', hpl, ?_, ?_⟩
        · intro q hq
          rcases List.mem_cons.mp hq with hq | hq
          · subst hq
            by_cases hqr : q ∈ rest
            · exact hin q hqr
            · rw [hout q hqr, hdef q (by simp) hval, hval]
          · exact hin q hq
        · intro q hq
          exact hout q (fun hc => hq (by simp [hc]))
      · by_cases hp : p = "flow_rate"
        · -- writing flow_rate: the UnsignedFloat descriptor accepts 0 ≤ value
          subst hp
          have hvnum : u.getAttr "flow_rate" = .num u.flow_rate := by
            simp [UnitBaseClass.getAttr]
          have hsa : w.setAttr "flow_rate" (PValue.num u.flow_rate)
              = .ok { w with flow_rate := u.flow_rate } := by
            simp [UnitBaseClass.setAttr, not_lt.mpr hflow]
          have step : applyLoop w (("flow_rate" :: rest).map (fun q => (q, u.getAttr q)))
              = applyLoop { w with flow_rate := u.flow_rate }
                  (rest.map (fun q => (q, u.getAttr q))) := by
            simp only [List.map_cons, applyLoop, if_pos hpmem, hvnum, hsa]
            simp
          have hmem2 : ∀ q ∈ rest,
              q ∈ ({ w with flow_rate := u.flow_rate } : UnitBaseClass).parametersList :=
            fun q hq => hmem q (by simp [hq])
          have hdef2 : ∀ q ∈ rest, u.getAttr q = .pnone →
              ({ w with flow_rate := u.flow_rate } : UnitBaseClass).getAttr q = .pnone := by
            intro q hq hqn
            by_cases hqf : q = "flow_rate"
            · rw [hqf, hvnum] at hqn
              exact absurd hqn (by simp)
            · have heq : ({ w with flow_rate := u.flow_rate } : UnitBaseClass).getAttr q
                  = w.getAttr q := by simp [UnitBaseClass.getAttr, hqf]
              rw [heq]
              exact hdef q (by simp [hq]) hqn
          obtain ⟨w', hw', hpl, hin, hout⟩ :=
            ih { w with flow_rate := u.flow_rate } hmem2 hflow hdef2
          refine ⟨w', by rw [step]; exact hw', hpl, ?_, ?_⟩
          · intro q hq
            rcases List.mem_cons.mp hq with hq | hq
            · subst hq
              by_cases hqr : "flow_rate" ∈ rest
              · exact hin "flow_rate" hqr
              · rw [hout "flow_rate" hqr, hvnum]
                simp [UnitBaseClass.getAttr]
            · exact hin q hq
          · intro q hq
            have hqf : q ≠ "flow_rate" := fun hc => hq (by simp [hc])
            rw [hout q (fun hc => hq (by simp [hc]))]
            simp [UnitBaseClass.getAttr, hqf]
        · -- writing a subtype attribute: stored in the descriptor slot
          have hsa : w.setAttr p (u.getAttr p)
              = .ok { w with extraParams := setKey w.extraParams p (u.getAttr p) } := by
            simp [UnitBaseClass.setAttr, hp]
          have step : applyLoop w ((p :: rest).map (fun q => (q, u.getAttr q)))
              = applyLoop { w with extraParams := setKey w.extraParams p (u.getAttr p) }
                  (rest.map (fun q => (q, u.getAttr q))) := by
            simp only [List.map_cons, applyLoop, if_pos hpmem, hsa]
            simp [hval]
          have hget2 : ({ w with extraParams := setKey w.extraParams p (u.getAttr p) } : UnitBaseClass).getAttr p = u.getAttr p := by
            simp [UnitBaseClass.getAttr, hp, lookupKey_setKey_same]
          have hget2' : ∀ q, q ≠ p →
              ({ w with extraParams := setKey w.extraParams p (u.getAttr p) } : UnitBaseClass).getAttr q = w.getAttr q := by
            intro q hq
            by_cases hqf : q = "flow_rate"
            · simp [UnitBaseClass.getAttr, hqf]
            · simp [UnitBaseClass.getAttr, hqf, lookupKey_setKey_ne _ _ _ _ hq]
          have hmem2 : ∀ q ∈ rest,
              q ∈ ({ w with extraParams := setKey w.extraParams p (u.getAttr p) } : UnitBaseClass).parametersList :=
            fun q hq => hmem q (by simp [hq])
          have hdef2 : ∀ q ∈ rest, u.getAttr q = .pnone →
              ({ w with extraParams := setKey w.extraParams p (u.getAttr p) } : UnitBaseClass).getAttr q = .pnone := by
            intro q hq hqn
            by_cases hqp : q = p
            · rw [hqp] at hqn
              exact absurd hqn hval
            · rw [hget2' q hqp]
              exact hdef q (by simp [hq]) hqn
          obtain ⟨w', hw', hpl, hin, hout⟩ :=
            ih { w with extraParams := setKey w.extraParams p (u.getAttr p) } hmem2 hflow hdef2
          refine ⟨w', by rw [step]; exact hw', hpl, ?_, ?_⟩
          · intro q hq
            rcases List.mem_cons.mp hq with hq | hq
            · subst hq
              by_cases hqr : q ∈ rest
              · exact hin q hqr
              · rw [hout q hqr, hget2]
            · exact hin q hq
          · intro q hq
            rw [hout q (fun hc => hq (by simp [hc]))]
            exact hget2' q (fun hc => hq (by simp [hc]))

lemma parameters_removeKey_output_state (u : UnitBaseClass)
    (hos : "output_state" ∉ u.parametersList) :
    removeKey u.parameters "output_state"
      = u.parametersList.map (fun p => (p, u.getAttr p)) := by
  have hkeys : ∀ kv ∈ u.parametersList.map (fun p => (p, u.getAttr p)),
      kv.1 ≠ "output_state" := by
    intro kv hkv
    obtain ⟨p, hp, rfl⟩ := List.mem_map.mp hkv
    exact fun hc => hos (hc ▸ hp)
  unfold UnitBaseClass.parameters removeKey
  by_cases hs : u.is_sink
  · rw [if_pos hs, List.append_nil, popKey_not_mem _ _ hkeys]
  · rw [if_neg hs, popKey_append _ _ _ _ hkeys, List.append_nil]

/-- C7 (amended): reading a unit's `parameters` and writing the mapping
back onto a freshly constructed unit of the same subtype and `n_comp`
reproduces identical values for every declared parameter — provided the
`output_state` entry is removed first (for `Sink` units there is none, so
the claim holds as stated).  With the entry kept, the write fails on the
fresh unit, whose `destinations` dict is still empty: see the
counterexample. -/
theorem parameters_roundtrip_without_output_state (u fresh : UnitBaseClass)
    (hncomp : fresh.n_comp = u.n_comp)
    (hnames : fresh.extraParamNames = u.extraParamNames)
    (hsink : fresh.is_sink = u.is_sink)
    (hflow : 0 ≤ u.flow_rate)
    (hos : "output_state" ∉ u.parametersList)
    (hbm : "binding_model" ∉ u.parametersList)
    (hdef : ∀ p ∈ u.parametersList, u.getAttr p = .pnone → fresh.getAttr p = .pnone) :
    ∃ w', fresh.set_parameters (removeKey u.parameters "output_state") = (w', none)
      ∧ ∀ p ∈ u.parametersList, w'.getAttr p = u.getAttr p := by
  have hfreshpl : fresh.parametersList = u.parametersList := by
    unfold UnitBaseClass.parametersList
    rw [hnames]
  rw [parameters_removeKey_output_state u hos]
  have hkeys : ∀ s : String, s ∉ u.parametersList →
      ∀ kv ∈ u.parametersList.map (fun p => (p, u.getAttr p)), kv.1 ≠ s := by
    intro s hsmem kv hkv
    obtain ⟨p, hp, rfl⟩ := List.mem_map.mp hkv
    exact fun hc => hsmem (hc ▸ hp)
  obtain ⟨w', hw', _, hin, _⟩ := applyLoop_from_getAttr u u.parametersList fresh
    (fun p hp => hfreshpl ▸ hp) hflow hdef
  refine ⟨w', ?_, hin⟩
  unfold UnitBaseClass.set_parameters removeKey
  rw [popKey_not_mem _ _ (hkeys "binding_model" hbm)]
  simp only
  rw [popKey_not_mem _ _ (hkeys "output_state" hos)]
  simpa using hw'

/-- Fixture: a splitter that has been wired to one destination and given
`output_state = [1]`; its `parameters` view holds that entry. -/
def umix : UnitBaseClass :=
  { name := "mix", n_comp := 1, flow_rate := 1, output_state := some [1],
    destinations := [("col", 1)] }

/-- Fixture: a freshly constructed unit of the same subtype as `umix`
(`__init__` leaves `destinations` empty and `output_state` unset). -/
def umixFresh : UnitBaseClass := { name := "mix2", n_comp := 1, flow_rate := 0 }

/-- C7 counterexample: writing `umix.parameters` — which carries
`output_state = [1]` — onto the freshly constructed `umixFresh` raises
`CADETProcessError` (the fresh unit has no destinations, so the
`output_state` delegate rejects length 1), instead of succeeding as the
claim states. -/
theorem parameters_roundtrip_fails_on_fresh_unit :
    umixFresh.set_parameters umix.parameters
      = (umixFresh, some (.cadetProcessError "Expected length 0.")) := by
  simp [umix, umixFresh, UnitBaseClass.set_parameters, UnitBaseClass.parameters,
    UnitBaseClass.parametersList, UnitBaseClass.getAttr, removeKey, popKey,
    UnitBaseClass.set_output_state]
  decide

/-- Witness for C7's (amended) theorem: a unit with one extra declared
parameter (`length`, set to 3) and flow rate 2 round-trips onto a fresh
unit once the `output_state` entry is dropped. -/
theorem parameters_roundtrip_without_output_state_witness :
    ∃ w', ({ name := "f2", n_comp := 1, flow_rate := 0, extraParamNames := ["length"] } : UnitBaseClass).set_parameters
        (removeKey ({ name := "f", n_comp := 1, flow_rate := 2, output_state := some [1], destinations := [("col", 2)], extraParamNames := ["length"], extraParams := [("length", .num 3)] } : UnitBaseClass).parameters "output_state")
        = (w', none)
      ∧ ∀ p ∈ ({ name := "f", n_comp := 1, flow_rate := 2, output_state := some [1], destinations := [("col", 2)], extraParamNames := ["length"], extraParams := [("length", .num 3)] } : UnitBaseClass).parametersList,
          w'.getAttr p
            = ({ name := "f", n_comp := 1, flow_rate := 2, output_state := some [1], destinations := [("col", 2)], extraParamNames := ["length"], extraParams := [("length", .num 3)] } : UnitBaseClass).getAttr p :=
  parameters_roundtrip_without_output_state
    { name := "f", n_comp := 1, flow_rate := 2, output_state := some [1],
      destinations := [("col", 2)], extraParamNames := ["length"],
      extraParams := [("length", .num 3)] }
    { name := "f2", n_comp := 1, flow_rate := 0, extraParamNames := ["length"] }
    rfl rfl rfl (by decide) (by decide) (by decide)
    (by decide)

/-- Values the `flow_rate` descriptor write accepts inside the
parameters loop (`None` is skipped before `setattr` is reached). -/
def flowAcceptable : PValue → Bool
  | .pnone => true
  | .num q => decide (0 ≤ q)
  | .intV i => decide (0 ≤ i)
  | .vec _ => false
  | .pbool _ => false

lemma applyLoop_no_error :
    ∀ (l : List (String × PValue)) (w : UnitBaseClass),
      (∀ kv ∈ l, kv.1 ∈ w.parametersList
        ∧ (kv.1 = "flow_rate" → flowAcceptable kv.2 = true)) →
      (applyLoop w l).2 = none ∧ (applyLoop w l).1.parametersList = w.parametersList := by
  intro l
  induction l with
  | nil => intro w _; exact ⟨rfl, rfl⟩
  | cons kv rest ih =>
      intro w h
      obtain ⟨k, v⟩ := kv
      obtain ⟨hkmem, hkflow⟩ := h (k, v) (by simp)
      by_cases hv : v = PValue.pnone
      · subst hv
        have step : applyLoop w ((k, PValue.pnone) :: rest) = applyLoop w rest := by
          simp [applyLoop, hkmem]
        rw [step]
        exact ih w (fun kv hkv => h kv (by simp [hkv]))
      · by_cases hk : k = "flow_rate"
        · subst hk
          cases v with
          | pnone => exact absurd rfl hv
          | num q =>
              have hq : ¬ q < 0 := by simpa [flowAcceptable, not_lt] using hkflow rfl
              have step : applyLoop w (("flow_rate", PValue.num q) :: rest)
                  = applyLoop { w with flow_rate := q } rest := by
                simp [applyLoop, hkmem, UnitBaseClass.setAttr, hq]
              rw [step]
              exact ih { w with flow_rate := q } (fun kv hkv => h kv (by simp [hkv]))
          | intV i =>
              have hq : ¬ i < 0 := by simpa [flowAcceptable, not_lt] using hkflow rfl
              have step : applyLoop w (("flow_rate", PValue.intV i) :: rest)
                  = applyLoop { w with flow_rate := (i : ℚ) } rest := by
                simp [applyLoop, hkmem, UnitBaseClass.setAttr, hq]
              rw [step]
              exact ih { w with flow_rate := (i : ℚ) } (fun kv hkv => h kv (by simp [hkv]))
          | vec xs => exact absurd (hkflow rfl) (by simp [flowAcceptable])
          | pbool b => exact absurd (hkflow rfl) (by simp [flowAcceptable])
        · have step : applyLoop w ((k, v) :: rest)
              = applyLoop { w with extraParams := setKey w.extraParams k v } rest := by
            simp [applyLoop, hkmem, UnitBaseClass.setAttr, hk, hv]
          rw [step]
          exact ih { w with extraParams := setKey w.extraParams k v }
            (fun kv hkv => h kv (by simp [hkv]))

lemma applyLoop_append_of_ok :
    ∀ (l1 : List (String × PValue)) (w w' : UnitBaseClass),
      applyLoop w l1 = (w', none) →
      ∀ l2, applyLoop w (l1 ++ l2) = applyLoop w' l2 := by
  intro l1
  induction l1 with
  | nil =>
      intro w w' h l2
      have h' : w = w' := congrArg Prod.fst h
      rw [List.nil_append, h']
  | cons kv rest ih =>
      intro w w' h l2
      obtain ⟨k, v⟩ := kv
      by_cases hk : k ∈ w.parametersList
      · by_cases hv : v = PValue.pnone
        · subst hv
          have hstep : applyLoop w ((k, PValue.pnone) :: rest) = applyLoop w rest := by
            simp [applyLoop, hk]
          have hstep2 : applyLoop w (((k, PValue.pnone) :: rest) ++ l2)
              = applyLoop w (rest ++ l2) := by
            simp [applyLoop, hk]
          rw [hstep] at h
          rw [hstep2]
          exact ih w w' h l2
        · cases hsa : w.setAttr k v with
          | ok u2 =>
              have hstep : applyLoop w ((k, v) :: rest) = applyLoop u2 rest := by
                simp [applyLoop, hk, hv, hsa]
              have hstep2 : applyLoop w (((k, v) :: rest) ++ l2)
                  = applyLoop u2 (rest ++ l2) := by
                simp [applyLoop, hk, hv, hsa]
              rw [hstep] at h
              rw [hstep2]
              exact ih u2 w' h l2
          | error e =>
              have hstep : applyLoop w ((k, v) :: rest) = (w, some e) := by
                simp [applyLoop, hk, hv, hsa]
              rw [hstep] at h
              simp [Prod.mk.injEq] at h
      · have hstep : applyLoop w ((k, v) :: rest)
            = (w, some (.cadetProcessError "Not a valid parameter")) := by
          simp [applyLoop, hk]
        rw [hstep] at h
        simp [Prod.mk.injEq] at h

/-- C8 (amended): the `parameters` setter applies entries one at a time
in mapping order; when it hits an undeclared key it raises at that point,
with every entry BEFORE the offending key already written and kept — a
failed mapping write is therefore partial, even though each individual
attribute write is all-or-nothing.  (`ps1` is the prefix of applied
entries, `k` the first undeclared key.  Each prefix entry is either a
`None` value — skipped by the loop before any descriptor is touched — or
a `flow_rate` write the `UnsignedFloat` descriptor accepts: exactly the
attribute writes whose validation this embedding models in full, so the
unmodelled subtype descriptors are never exercised here.) -/
theorem parameters_write_stops_at_unknown_key (w : UnitBaseClass)
    (ps1 ps2 : List (String × PValue)) (k : String) (v : PValue)
    (hk : k ∉ w.parametersList)
    (hspecial : ∀ kv ∈ ps1 ++ (k, v) :: ps2,
        kv.1 ≠ "output_state" ∧ kv.1 ≠ "binding_model")
    (h1 : ∀ kv ∈ ps1, kv.1 ∈ w.parametersList
        ∧ (kv.2 = PValue.pnone
            ∨ (kv.1 = "flow_rate" ∧ flowAcceptable kv.2 = true))) :
    w.set_parameters (ps1 ++ (k, v) :: ps2)
      = ((applyLoop w ps1).1, some (.cadetProcessError "Not a valid parameter")) := by
  have hbm : ∀ kv ∈ ps1 ++ (k, v) :: ps2, kv.1 ≠ "binding_model" :=
    fun kv hkv => (hspecial kv hkv).2
  have hos : ∀ kv ∈ ps1 ++ (k, v) :: ps2, kv.1 ≠ "output_state" :=
    fun kv hkv => (hspecial kv hkv).1
  have h1' : ∀ kv ∈ ps1, kv.1 ∈ w.parametersList
      ∧ (kv.1 = "flow_rate" → flowAcceptable kv.2 = true) := by
    intro kv hkv
    obtain ⟨hmem, hv⟩ := h1 kv hkv
    refine ⟨hmem, fun _ => ?_⟩
    rcases hv with hv | ⟨_, hv⟩
    · rw [hv]
      rfl
    · exact hv
  obtain ⟨hnone, hpl⟩ := applyLoop_no_error ps1 w h1'
  have heta : applyLoop w ps1 = ((applyLoop w ps1).1, none) := by
    rw [← hnone]
  have happ := applyLoop_append_of_ok ps1 w (applyLoop w ps1).1 heta ((k, v) :: ps2)
  have hk1 : k ∉ (applyLoop w ps1).1.parametersList := by rw [hpl]; exact hk
  unfold UnitBaseClass.set_parameters removeKey
  rw [popKey_not_mem _ _ hbm]
  simp only
  rw [popKey_not_mem _ _ hos]
  simp only
  rw [happ]
  simp [applyLoop, hk1]

/-- Fixture for the partial-write scenario: a base unit with
`flow_rate = 0`. -/
def w8 : UnitBaseClass := { name := "w", n_comp := 1, flow_rate := 0 }

/-- Witness for C8's (amended) theorem: writing
`{'flow_rate': 5, 'bogus': 1}` onto `w8` raises on `'bogus'` with the
prefix already applied. -/
theorem parameters_write_stops_at_unknown_key_witness :
    w8.set_parameters [("flow_rate", .num 5), ("bogus", .num 1)]
      = ((applyLoop w8 [("flow_rate", .num 5)]).1,
         some (.cadetProcessError "Not a valid parameter")) :=
  parameters_write_stops_at_unknown_key w8 [("flow_rate", .num 5)] [] "bogus" (.num 1)
    (by decide) (by decide) (by decide)

/-- C8 counterexample: the failed write
`{'flow_rate': 5, 'bogus': 1}` (raising `CADETProcessError` on `'bogus'`)
leaves `flow_rate = 5` behind — the state after the failed write differs
from the state before it. -/
theorem failed_parameters_write_mutates_state :
    w8.set_parameters [("flow_rate", .num 5), ("bogus", .num 1)]
      = ({ w8 with flow_rate := 5 }, some (.cadetProcessError "Not a valid parameter"))
    ∧ ({ w8 with flow_rate := 5 } : UnitBaseClass).flow_rate ≠ w8.flow_rate := by
  constructor
  · decide
  · norm_num [w8]

/-- C9 counterexample: `LumpedRateModelWithPores._parameters` is NOT
`TubularReactor._parameters` extended by the six names ending in
`pore_accessibility`; in particular `pore_accessibility` is absent, so it
cannot appear in the `parameters` view. -/
theorem pore_accessibility_missing_from_parameters :
    LumpedRateModelWithPores.parametersClassList
        ≠ TubularReactor.parametersClassList ++
            ["bed_porosity", "particle_porosity", "particle_radius",
             "film_diffusion", "pore_diffusion", "pore_accessibility"]
    ∧ "pore_accessibility" ∉ LumpedRateModelWithPores.parametersClassList := by
  decide

/-- C9 (amended): `LumpedRateModelWithPores._parameters` equals
`TubularReactor._parameters` extended by exactly `bed_porosity`,
`particle_porosity`, `particle_radius`, `film_diffusion` and
`pore_diffusion`, in that order; `pore_accessibility` is a declared
class attribute but is NOT in the parameter-name list, hence missing
from the `parameters` view. -/
theorem lumped_rate_with_pores_parameter_names :
    LumpedRateModelWithPores.parametersClassList
        = TubularReactor.parametersClassList ++
            ["bed_porosity", "particle_porosity", "particle_radius",
             "film_diffusion", "pore_diffusion"]
    ∧ "pore_accessibility" ∈ LumpedRateModelWithPores.declaredAttributes
    ∧ "pore_accessibility" ∉ LumpedRateModelWithPores.parametersClassList := by
  decide

/-- C10 (confirmed): the base `TubularReactor` has the class attribute
`total_porosity = 1`, so `volume_liquid` coincides with
`cylinder_volume` and `volume_solid` is `0`, whatever `length` and
`diameter` are. -/
theorem tubular_reactor_total_porosity_one (t : TubularReactor) :
    t.total_porosity = 1
    ∧ t.volume_liquid = t.cylinder_volume
    ∧ t.volume_solid = 0 := by
  refine ⟨rfl, ?_, ?_⟩
  · simp [TubularReactor.volume_liquid, TubularReactor.total_porosity]
  · simp [TubularReactor.volume_solid, TubularReactor.total_porosity]
